import Mathlib

/-!
# Verification of the retail-core transaction engine

Shallow embedding of the transaction-processing core of the
`category-management-api` repository (checkout, void, reporting), translated
from `repositories` (the `transactionRepository` over PostgreSQL tables
`products`, `categories`, `transactions`, `transaction_details`) and
`services` (the validating `transactionService`).

Tables are lists of rows; `id` columns are `SERIAL PRIMARY KEY` in the schema
(`database.RunMigrations`), so a lookup joining on `id` is modelled with
`List.find?`.  Go `int` columns are modelled as `Int`; `created_at::date` is
modelled as a `Nat` day index.  Each SQL statement executed inside a
`db.Begin()` unit consults a fault oracle (`Nat → Bool`, statement counter to
failure) modelling connection/timeout storage errors; `defer tx.Rollback()`
with a final `tx.Commit()` is modelled by returning the unchanged input state
on every error path and the staged state only on commit.
-/

deriving instance DecidableEq for Except

namespace Retail

/-- Row of the `products` table: `id, name, price, stock, category_id`
(columns the transaction core reads; `category_id` is nullable). -/
structure Product where
  id : Int
  name : String
  price : Int
  stock : Int
  categoryId : Option Int
  deriving DecidableEq

/-- Row of the `categories` table (the columns the report join reads). -/
structure Category where
  id : Int
  name : String
  deriving DecidableEq

/-- `models.CheckoutItem`. -/
structure CheckoutItem where
  productId : Int
  quantity : Int
  deriving DecidableEq

/-- `models.CheckoutRequest`. -/
structure CheckoutRequest where
  items : List CheckoutItem
  paymentMethod : String
  discount : Int
  notes : String
  deriving DecidableEq

/-- Row of the `transactions` table.  `createdAt` is the `created_at::date`
day index assigned at insert time. -/
structure TransactionRow where
  id : Int
  totalAmount : Int
  paymentMethod : String
  discount : Int
  notes : String
  status : String
  createdAt : Nat
  deriving DecidableEq

/-- Row of the `transaction_details` table.  Note that the schema has no
`product_name` column: the insert in `CreateTransaction` persists only
`(transaction_id, product_id, quantity, unit_price, subtotal)`. -/
structure DetailRow where
  id : Int
  transactionId : Int
  productId : Int
  quantity : Int
  unitPrice : Int
  subtotal : Int
  deriving DecidableEq

/-- `models.TransactionDetail` (the in-memory struct, which carries the
product name resolved at read time). -/
structure TransactionDetail where
  id : Int
  transactionId : Int
  productId : Int
  productName : String
  quantity : Int
  unitPrice : Int
  subtotal : Int
  deriving DecidableEq

/-- `models.Transaction`. -/
structure Transaction where
  id : Int
  totalAmount : Int
  paymentMethod : String
  discount : Int
  notes : String
  status : String
  createdAt : Nat
  details : List TransactionDetail
  deriving DecidableEq

/-- The persistent store shared by all operations: the four tables plus the
`SERIAL` sequences feeding `RETURNING id`. -/
structure DBState where
  products : List Product
  categories : List Category
  transactions : List TransactionRow
  transactionDetails : List DetailRow
  nextTxId : Int
  nextDetailId : Int
  deriving DecidableEq

/-- The distinguishable error outcomes of the transaction core
(`fmt.Errorf` messages in the repository, `errors.New` in the service,
driver faults as `storageError`). -/
inductive RepoError where
  | productNotFound (pid : Int)
  | insufficientStock (name : String) (available requested : Int)
  | transactionNotFound (tid : Int)
  | alreadyVoided
  | validationError (msg : String)
  | storageError
  deriving DecidableEq

/-- Fault oracle used by the healthy-storage runs. -/
def noFaults : Nat → Bool := fun _ => false

/-- `SELECT ... FROM products WHERE id = $1` (lookup on the primary key). -/
def lookupProduct (s : DBState) (pid : Int) : Option Product :=
  s.products.find? (fun p => p.id == pid)

/-- `SELECT ... FROM transactions WHERE id = $1` (lookup on the primary key). -/
def lookupTx (s : DBState) (tid : Int) : Option TransactionRow :=
  s.transactions.find? (fun t => t.id == tid)

/-- `UPDATE products SET stock = stock + delta WHERE id = pid`: every matching
row is adjusted; zero matching rows is a silent no-op. -/
def updateStock (ps : List Product) (pid : Int) (delta : Int) : List Product :=
  ps.map (fun p => if p.id == pid then { p with stock := p.stock + delta } else p)

/-- The item loop of `CreateTransaction` (part_004 lines 44–82): for each item
`SELECT name, price, stock` (statement `k`, in-transaction view `ps`), fail
`productNotFound` on no rows, fail `insufficientStock` when
`stock < item.Quantity`, else accumulate the subtotal and detail and run
`UPDATE products SET stock = stock - quantity` (statement `k+1`) on the
in-transaction view.  Returns the staged products, the running total, the
staged details in request order, and the next statement counter. -/
def processItems (faults : Nat → Bool) (k : Nat) (ps : List Product) :
    List CheckoutItem → Except RepoError (List Product × Int × List TransactionDetail × Nat)
  | [] => .ok (ps, 0, [], k)
  | item :: rest =>
    if faults k then .error .storageError
    else
      match ps.find? (fun p => p.id == item.productId) with
      | none => .error (.productNotFound item.productId)
      | some p =>
        if p.stock < item.quantity then
          .error (.insufficientStock p.name p.stock item.quantity)
        else if faults (k + 1) then .error .storageError
        else
          match processItems faults (k + 2) (updateStock ps item.productId (-item.quantity)) rest with
          | .error e => .error e
          | .ok (ps', total, ds, k') =>
            .ok (ps', p.price * item.quantity + total,
              { id := 0, transactionId := 0, productId := item.productId,
                productName := p.name, quantity := item.quantity,
                unitPrice := p.price, subtotal := p.price * item.quantity } :: ds, k')

/-- The detail-insert loop (part_004 lines 110–123): each staged detail
receives the transaction id and a fresh `RETURNING id`. -/
def assignIds (txId : Int) (startId : Int) :
    List TransactionDetail → List TransactionDetail
  | [] => []
  | d :: rest =>
    { d with id := startId, transactionId := txId } :: assignIds txId (startId + 1) rest

/-- Projection of an in-memory detail to the persisted `transaction_details`
row (the insert stores no product name). -/
def detailToRow (d : TransactionDetail) : DetailRow :=
  { id := d.id, transactionId := d.transactionId, productId := d.productId,
    quantity := d.quantity, unitPrice := d.unitPrice, subtotal := d.subtotal }

/-- `CreateTransaction` (part_004 lines 34–139): one atomic unit.  After the
item loop, the discount is lowered to the running total when it exceeds it,
`final_amount = total - discount`, the payment method defaults to `"cash"`,
the header row is inserted (one statement), each detail row is inserted (one
statement each) and the unit commits (one statement).  Every error path
returns the unchanged input state (`defer tx.Rollback()`). -/
def createTransaction (faults : Nat → Bool) (today : Nat) (s : DBState)
    (req : CheckoutRequest) : Except RepoError Transaction × DBState :=
  match processItems faults 0 s.products req.items with
  | .error e => (.error e, s)
  | .ok (ps', totalAmount, ds, k) =>
    let discount := if req.discount > totalAmount then totalAmount else req.discount
    let finalAmount := totalAmount - discount
    let paymentMethod := if req.paymentMethod = "" then "cash" else req.paymentMethod
    if faults k then (.error .storageError, s)
    else
      let txId := s.nextTxId
      let row : TransactionRow :=
        { id := txId, totalAmount := finalAmount, paymentMethod := paymentMethod,
          discount := discount, notes := req.notes, status := "active", createdAt := today }
      let ds' := assignIds txId s.nextDetailId ds
      if (List.range ds'.length).any (fun i => faults (k + 1 + i)) then (.error .storageError, s)
      else if faults (k + 1 + ds'.length) then (.error .storageError, s)
      else
        (.ok { id := txId, totalAmount := finalAmount, paymentMethod := paymentMethod,
               discount := discount, notes := req.notes, status := "active",
               createdAt := today, details := ds' },
         { s with
             products := ps'
             transactions := s.transactions ++ [row]
             transactionDetails := s.transactionDetails ++ ds'.map detailToRow
             nextTxId := txId + 1
             nextDetailId := s.nextDetailId + ds'.length })

/-- The per-item validation loop of `transactionService.Checkout`
(services/transaction_service.go lines 37–44). -/
def validateItems : List CheckoutItem → Option RepoError
  | [] => none
  | item :: rest =>
    if item.productId ≤ 0 then some (.validationError "invalid product ID")
    else if item.quantity ≤ 0 then some (.validationError "quantity must be greater than 0")
    else validateItems rest

/-- `transactionService.Checkout`: rejects an empty item list and invalid
ids/quantities before any storage access, then delegates to
`createTransaction`. -/
def checkout (faults : Nat → Bool) (today : Nat) (s : DBState)
    (req : CheckoutRequest) : Except RepoError Transaction × DBState :=
  if req.items.length = 0 then
    (.error (.validationError "checkout items cannot be empty"), s)
  else
    match validateItems req.items with
    | some e => (.error e, s)
    | none => createTransaction faults today s req

/-- The stock-restore loop of `VoidTransaction` (part_004 lines 185–190):
`UPDATE products SET stock = stock + quantity WHERE id = product_id` for each
recorded detail row, one statement each. -/
def restoreStock (faults : Nat → Bool) (k : Nat) (ps : List Product) :
    List DetailRow → Except RepoError (List Product × Nat)
  | [] => .ok (ps, k)
  | d :: rest =>
    if faults k then .error .storageError
    else restoreStock faults (k + 1) (updateStock ps d.productId d.quantity) rest

/-- `VoidTransaction` (part_004 lines 142–199): one atomic unit.  Reads the
status (statement 0; `transactionNotFound` on no rows, `alreadyVoided` when it
is `"void"`), reads the detail rows (statement 1), restores stock row by row,
marks the transaction void (one statement) and commits (one statement).
Every error path returns the unchanged input state. -/
def voidTransaction (faults : Nat → Bool) (s : DBState) (tid : Int) :
    Except RepoError Unit × DBState :=
  if faults 0 then (.error .storageError, s)
  else
    match lookupTx s tid with
    | none => (.error (.transactionNotFound tid), s)
    | some t =>
      if t.status = "void" then (.error .alreadyVoided, s)
      else if faults 1 then (.error .storageError, s)
      else
        let items := s.transactionDetails.filter (fun d => d.transactionId == tid)
        match restoreStock faults 2 s.products items with
        | .error e => (.error e, s)
        | .ok (ps', k) =>
          if faults k then (.error .storageError, s)
          else if faults (k + 1) then (.error .storageError, s)
          else
            (.ok (),
             { s with
                 products := ps'
                 transactions := s.transactions.map
                   (fun t' => if t'.id == tid then { t' with status := "void" } else t') })

/-- `GetTransactionByID` (part_004 lines 345–382): reads the header row, then
the detail rows joined `LEFT JOIN products`, rendering each product name as
`COALESCE(p.name, 'Deleted Product')` from the *current* products table. -/
def getTransactionByID (s : DBState) (tid : Int) : Except RepoError Transaction :=
  match lookupTx s tid with
  | none => .error (.transactionNotFound tid)
  | some t =>
    .ok { id := t.id, totalAmount := t.totalAmount, paymentMethod := t.paymentMethod,
          discount := t.discount, notes := t.notes, status := t.status,
          createdAt := t.createdAt,
          details := (s.transactionDetails.filter (fun d => d.transactionId == tid)).map
            (fun d =>
              { id := d.id, transactionId := d.transactionId, productId := d.productId,
                productName :=
                  match lookupProduct s d.productId with
                  | some p => p.name
                  | none => "Deleted Product",
                quantity := d.quantity, unitPrice := d.unitPrice, subtotal := d.subtotal }) }

/-! ## Reporting (read-only aggregations) -/

/-- `models.BestSellingProduct`. -/
structure BestSellingProduct where
  name : String
  qtySold : Int
  deriving DecidableEq

/-- `models.SalesReport`. -/
structure SalesReport where
  totalRevenue : Int
  totalTransactions : Nat
  bestSellingProduct : Option BestSellingProduct
  deriving DecidableEq

/-- `models.CategoryRevenue`. -/
structure CategoryRevenue where
  categoryId : Int
  categoryName : String
  revenue : Int
  transactions : Nat
  deriving DecidableEq

/-- `models.ReportSummary`. -/
structure ReportSummary where
  totalRevenue : Int
  totalTransactions : Nat
  bestSellingProduct : Option BestSellingProduct
  categoryBreakdown : List CategoryRevenue
  deriving DecidableEq

/-- `models.DashboardStats`. -/
structure DashboardStats where
  totalRevenueToday : Int
  transactionsToday : Nat
  totalProducts : Nat
  totalCategories : Nat
  lowStockCount : Nat
  bestSellingToday : Option BestSellingProduct
  deriving DecidableEq

/-- A row of the join `transaction_details td JOIN transactions t ON
td.transaction_id = t.id JOIN products p ON td.product_id = p.id`. -/
abbrev SalesRow := DetailRow × TransactionRow × Product

/-- The joined row produced by one detail row, if any: its transaction and
product must exist (inner joins on the `SERIAL PRIMARY KEY` columns, hence
`find?`), the transaction must be active and match the date predicate. -/
def rowOf (s : DBState) (pred : TransactionRow → Bool) (d : DetailRow) :
    Option SalesRow :=
  match lookupTx s d.transactionId, lookupProduct s d.productId with
  | some t, some p =>
    if t.status == "active" && pred t then some (d, t, p) else none
  | _, _ => none

/-- The joined detail rows matching `t.status = 'active'` and the date
predicate `pred` — the `FROM`/`WHERE` base shared by the best-seller and
category-breakdown queries. -/
def salesRows (s : DBState) (pred : TransactionRow → Bool) : List SalesRow :=
  s.transactionDetails.filterMap (rowOf s pred)

/-- `SUM(td.quantity)` for one product group of the best-seller query. -/
def rowQty (rows : List SalesRow) (pid : Int) : Int :=
  ((rows.filter (fun r => r.2.2.id == pid)).map (fun r => r.1.quantity)).sum

/-- The `GROUP BY p.id, p.name` keys of the best-seller query (one group per
product that has at least one matching joined row). -/
def bestKeys (rows : List SalesRow) : List Product :=
  (rows.map (fun r => r.2.2)).dedup

/-- `ORDER BY qty_sold DESC LIMIT 1`: keep a group with maximal quantity
(ties between groups are not ordered by the SQL; the model keeps the
earliest-listed maximal group, a deterministic refinement). -/
def pickBest : List BestSellingProduct → Option BestSellingProduct
  | [] => none
  | b :: rest =>
    match pickBest rest with
    | none => some b
    | some b2 => if b2.qtySold > b.qtySold then some b2 else some b

/-- The best-seller query (part_004 lines 215–224 / 250–259 / 413–422 /
461–470): `ErrNoRows` — i.e. no matching group — yields `none`. -/
def bestSellingOf (rows : List SalesRow) : Option BestSellingProduct :=
  pickBest ((bestKeys rows).map (fun p => { name := p.name, qtySold := rowQty rows p.id }))

/-- `WHERE created_at::date = CURRENT_DATE AND status = 'active'`. -/
def todayPred (today : Nat) : TransactionRow → Bool := fun t => t.createdAt == today

/-- `WHERE created_at::date >= $1::date AND created_at::date <= $2::date`. -/
def rangePred (startD endD : Nat) : TransactionRow → Bool :=
  fun t => decide (startD ≤ t.createdAt) && decide (t.createdAt ≤ endD)

/-- The header aggregate `SELECT COALESCE(SUM(total_amount), 0), COUNT(*)
FROM transactions WHERE <pred> AND status = 'active'`. -/
def revenueRows (s : DBState) (pred : TransactionRow → Bool) : List TransactionRow :=
  s.transactions.filter (fun t => t.status == "active" && pred t)

/-- `GetDailySalesReport` (part_004 lines 202–234). -/
def getDailySalesReport (s : DBState) (today : Nat) : SalesReport :=
  { totalRevenue := ((revenueRows s (todayPred today)).map (fun t => t.totalAmount)).sum
    totalTransactions := (revenueRows s (todayPred today)).length
    bestSellingProduct := bestSellingOf (salesRows s (todayPred today)) }

/-- `GetSalesReportByDateRange` (part_004 lines 237–269). -/
def getSalesReportByDateRange (s : DBState) (startD endD : Nat) : SalesReport :=
  { totalRevenue := ((revenueRows s (rangePred startD endD)).map (fun t => t.totalAmount)).sum
    totalTransactions := (revenueRows s (rangePred startD endD)).length
    bestSellingProduct := bestSellingOf (salesRows s (rangePred startD endD)) }

/-- `GROUP BY p.category_id, c.name`: the group key is the product's nullable
`category_id` (the joined `c.name` is determined by it, `categories.id` being
the primary key). -/
def breakdownKeys (rows : List SalesRow) : List (Option Int) :=
  (rows.map (fun r => r.2.2.categoryId)).dedup

/-- `COALESCE(c.name, 'Uncategorized')` after `LEFT JOIN categories c ON
p.category_id = c.id`. -/
def catName (cats : List Category) (key : Option Int) : String :=
  match key with
  | none => "Uncategorized"
  | some cid =>
    match cats.find? (fun c => c.id == cid) with
    | some c => c.name
    | none => "Uncategorized"

/-- One output row of the category-breakdown query: `COALESCE(p.category_id,
0)`, the coalesced name, `SUM(td.subtotal)` and `COUNT(DISTINCT t.id)`. -/
def entryFor (cats : List Category) (rows : List SalesRow) (key : Option Int) :
    CategoryRevenue :=
  let sub := rows.filter (fun r => r.2.2.categoryId == key)
  { categoryId := key.getD 0
    categoryName := catName cats key
    revenue := (sub.map (fun r => r.1.subtotal)).sum
    transactions := ((sub.map (fun r => r.2.1.id)).dedup).length }

/-- Descending-revenue order used by `ORDER BY SUM(td.subtotal) DESC`. -/
def revDescOrder (a b : CategoryRevenue) : Prop := b.revenue ≤ a.revenue

instance : DecidableRel revDescOrder :=
  fun a b => inferInstanceAs (Decidable (b.revenue ≤ a.revenue))

instance : IsTotal CategoryRevenue revDescOrder :=
  ⟨fun a b => le_total b.revenue a.revenue⟩

instance : IsTrans CategoryRevenue revDescOrder :=
  ⟨fun _ _ _ hab hbc => le_trans hbc hab⟩

/-- The category-breakdown query (part_004 lines 482–507): one row per group,
ordered by revenue descending (ties between groups are not ordered by the
SQL; the stable insertion sort is a deterministic refinement). -/
def breakdownOf (cats : List Category) (rows : List SalesRow) : List CategoryRevenue :=
  List.insertionSort revDescOrder ((breakdownKeys rows).map (entryFor cats rows))

/-- `GetReportSummary` (part_004 lines 435–510), with both date filters
present (the service rejects empty dates before reaching the repository). -/
def getReportSummary (s : DBState) (startD endD : Nat) : ReportSummary :=
  { totalRevenue := ((revenueRows s (rangePred startD endD)).map (fun t => t.totalAmount)).sum
    totalTransactions := (revenueRows s (rangePred startD endD)).length
    bestSellingProduct := bestSellingOf (salesRows s (rangePred startD endD))
    categoryBreakdown := breakdownOf s.categories (salesRows s (rangePred startD endD)) }

/-- `GetDashboardStats` (part_004 lines 385–432). -/
def getDashboardStats (s : DBState) (today : Nat) : DashboardStats :=
  { totalRevenueToday := ((revenueRows s (todayPred today)).map (fun t => t.totalAmount)).sum
    transactionsToday := (revenueRows s (todayPred today)).length
    totalProducts := s.products.length
    totalCategories := s.categories.length
    lowStockCount := (s.products.filter (fun p => p.stock < 10)).length
    bestSellingToday := bestSellingOf (salesRows s (todayPred today)) }

/-! ## Specification-side definitions used by the theorems -/

/-- Invariants guaranteed by the schema and the data model: `products.id` is
`SERIAL PRIMARY KEY` (no duplicate ids), stock is never negative (spec §3),
and recorded line-item quantities are positive (spec §3, enforced by the
service validation at checkout). -/
def WellFormed (s : DBState) : Prop :=
  (s.products.map (fun p => p.id)).Nodup ∧
  (∀ p ∈ s.products, 0 ≤ p.stock) ∧
  (∀ d ∈ s.transactionDetails, 0 < d.quantity)

instance (s : DBState) : Decidable (WellFormed s) := by
  unfold WellFormed; infer_instance

/-- The total quantity of product `pid` recorded in the line items of order
`tid` — the amount a void restores to that product. -/
def restoredQty (s : DBState) (tid pid : Int) : Int :=
  ((s.transactionDetails.filter
    (fun d => d.transactionId == tid && d.productId == pid)).map (fun d => d.quantity)).sum

/-- The `transactions` row corresponding to a returned `Transaction` value. -/
def txRowOf (t : Transaction) : TransactionRow :=
  { id := t.id, totalAmount := t.totalAmount, paymentMethod := t.paymentMethod,
    discount := t.discount, notes := t.notes, status := t.status, createdAt := t.createdAt }

/-- Restriction of a state to its active orders: void (or unmatched)
transactions and their detail rows are removed; products and categories are
untouched.  Reporting aggregates over only the active orders exactly when
they are invariant under this restriction. -/
def restrictActive (s : DBState) : DBState :=
  { s with
      transactions := s.transactions.filter (fun t => t.status == "active")
      transactionDetails := s.transactionDetails.filter (fun d =>
        match lookupTx s d.transactionId with
        | some t => t.status == "active"
        | none => false) }

/-- A detail row qualifies for the aggregates of date predicate `pred` when
its order exists, is active, and matches `pred`. -/
def qualifiesP (s : DBState) (pred : TransactionRow → Bool) (d : DetailRow) : Bool :=
  match lookupTx s d.transactionId with
  | some t => t.status == "active" && pred t
  | none => false

/-- The category key (nullable `category_id`) of a detail row's product, when
that product still exists. -/
def catKeyOf (s : DBState) (d : DetailRow) : Option (Option Int) :=
  (lookupProduct s d.productId).map (fun p => p.categoryId)

/-- Reference revenue of one category bucket: the sum of the subtotals of the
qualifying detail rows whose (existing) product carries that category key. -/
def refRevenue (s : DBState) (pred : TransactionRow → Bool) (key : Option Int) : Int :=
  ((s.transactionDetails.filter
      (fun d => qualifiesP s pred d && catKeyOf s d == some key)).map
    (fun d => d.subtotal)).sum

/-- Reference transaction count of one category bucket: the number of
distinct orders among the qualifying detail rows of that bucket. -/
def refTransactions (s : DBState) (pred : TransactionRow → Bool) (key : Option Int) : Nat :=
  (((s.transactionDetails.filter
      (fun d => qualifiesP s pred d && catKeyOf s d == some key)).map
    (fun d => d.transactionId)).dedup).length

/-- Reference category keys: the distinct category keys among qualifying
detail rows whose product still exists.  Detail rows whose product was
deleted contribute no key. -/
def refKeys (s : DBState) (pred : TransactionRow → Bool) : List (Option Int) :=
  (s.transactionDetails.filterMap
    (fun d => if qualifiesP s pred d then catKeyOf s d else none)).dedup

/-! ## Concurrency model for two racing checkouts (claim C5)

`CreateTransaction` reads stock with a plain `SELECT name, price, stock FROM
products WHERE id = $1` (part_004 line 48) — no `FOR UPDATE` — checks
`stock < item.Quantity` against that read (line 59), and then runs the
unconditional `UPDATE products SET stock = stock - $1 WHERE id = $2`
(line 67).  The connection never changes the isolation level, so PostgreSQL
runs each unit at READ COMMITTED: the `SELECT` takes no row lock, and the
`UPDATE` locks the row and recomputes `stock - qty` from the row's current
committed value.  The model below interleaves the stock-read and
stock-update statements of two sessions that each check out `qty` units of
the same product; a session whose check fails stops (its transaction rolls
back), a session whose update runs commits. -/

/-- Shared row value plus the per-session observed read and success flag. -/
structure RaceState where
  stock : Int
  read1 : Option Int
  read2 : Option Int
  sold1 : Bool
  sold2 : Bool
  deriving DecidableEq

/-- The interleavable statements: each session's `SELECT` and `UPDATE`. -/
inductive RaceStep where
  | select1
  | select2
  | update1
  | update2
  deriving DecidableEq

/-- One statement of the race: a `SELECT` records the current committed
stock; an `UPDATE` runs only when the session's earlier check
`read < qty` did not fail, and then decrements the current committed stock
(READ COMMITTED recomputation), marking the session as sold. -/
def raceStep (qty : Int) (st : RaceState) : RaceStep → RaceState
  | .select1 => { st with read1 := some st.stock }
  | .select2 => { st with read2 := some st.stock }
  | .update1 =>
    match st.read1 with
    | some v => if v < qty then st else { st with stock := st.stock - qty, sold1 := true }
    | none => st
  | .update2 =>
    match st.read2 with
    | some v => if v < qty then st else { st with stock := st.stock - qty, sold2 := true }
    | none => st

/-- Run a schedule of interleaved statements. -/
def runRace (qty : Int) (sched : List RaceStep) (st : RaceState) : RaceState :=
  sched.foldl (raceStep qty) st

/-- The initial race state: committed stock, no reads, no sales. -/
def raceInit (stock : Int) : RaceState :=
  { stock := stock, read1 := none, read2 := none, sold1 := false, sold2 := false }

/-! ## Helper lemmas about the building blocks -/

theorem updateStock_map_id (ps : List Product) (pid delta : Int) :
    (updateStock ps pid delta).map (fun p => p.id) = ps.map (fun p => p.id) := by
  unfold updateStock
  rw [List.map_map]
  apply List.map_congr_left
  intro p _
  dsimp only [Function.comp]
  split <;> rfl

theorem updateStock_price (ps : List Product) (pid delta : Int)
    (h : ∀ p ∈ ps, 0 ≤ p.price) : ∀ q ∈ updateStock ps pid delta, 0 ≤ q.price := by
  intro q hq
  obtain ⟨p, hp, hq'⟩ := List.mem_map.mp hq
  subst hq'
  split
  · exact h p hp
  · exact h p hp

/-- Decrementing the found product by a quantity bounded by its stock keeps
every stock non-negative (primary-key uniqueness makes the guarded product
the only decremented row). -/
theorem updateStock_nonneg_of_le (ps : List Product) (pid qty : Int) (p₀ : Product)
    (hnd : (ps.map (fun p => p.id)).Nodup)
    (hst : ∀ p ∈ ps, 0 ≤ p.stock)
    (hfind : ps.find? (fun p => p.id == pid) = some p₀)
    (hle : qty ≤ p₀.stock) :
    ∀ q ∈ updateStock ps pid (-qty), 0 ≤ q.stock := by
  intro q hq
  obtain ⟨p, hp, hq'⟩ := List.mem_map.mp hq
  subst hq'
  split
  case isTrue hid =>
    have hpmem : p₀ ∈ ps := List.mem_of_find?_eq_some hfind
    have hpid : (p₀.id == pid) = true := by simpa using List.find?_some hfind
    have heq : p = p₀ := by
      apply List.inj_on_of_nodup_map hnd hp hpmem
      have h1 : p.id = pid := by simpa using hid
      have h2 : p₀.id = pid := by simpa using hpid
      rw [h1, h2]
    subst heq
    have := hst p hp
    show 0 ≤ p.stock + -qty
    omega
  case isFalse hid => exact hst p hp

/-- Incrementing by a non-negative quantity keeps every stock
non-negative. -/
theorem updateStock_nonneg_of_nonneg (ps : List Product) (pid delta : Int)
    (hst : ∀ p ∈ ps, 0 ≤ p.stock) (hd : 0 ≤ delta) :
    ∀ q ∈ updateStock ps pid delta, 0 ≤ q.stock := by
  intro q hq
  obtain ⟨p, hp, hq'⟩ := List.mem_map.mp hq
  subst hq'
  split
  · have := hst p hp
    show 0 ≤ p.stock + delta
    omega
  · exact hst p hp

/-- The item loop preserves the set of product ids and, with the schema's
primary-key uniqueness, non-negative stocks. -/
theorem processItems_ok_products (faults : Nat → Bool) :
    ∀ (items : List CheckoutItem) (k : Nat) (ps ps' : List Product) (total : Int)
      (ds : List TransactionDetail) (k' : Nat),
      processItems faults k ps items = .ok (ps', total, ds, k') →
      (ps.map (fun p => p.id)).Nodup →
      (∀ p ∈ ps, 0 ≤ p.stock) →
      ps'.map (fun p => p.id) = ps.map (fun p => p.id) ∧ ∀ p ∈ ps', 0 ≤ p.stock := by
  intro items
  induction items with
  | nil =>
    intro k ps ps' total ds k' h hnd hst
    unfold processItems at h
    simp only [Except.ok.injEq, Prod.mk.injEq] at h
    obtain ⟨rfl, -, -, -⟩ := h
    exact ⟨rfl, hst⟩
  | cons item rest ih =>
    intro k ps ps' total ds k' h hnd hst
    unfold processItems at h
    by_cases hf : faults k = true
    · simp [hf] at h
    · simp only [hf, Bool.false_eq_true, if_false] at h
      cases hfind : ps.find? (fun p => p.id == item.productId) with
      | none => simp [hfind] at h
      | some p =>
        simp only [hfind] at h
        by_cases hstock : p.stock < item.quantity
        · simp [hstock] at h
        · simp only [hstock, if_false] at h
          by_cases hf2 : faults (k + 1) = true
          · simp [hf2] at h
          · simp only [hf2, Bool.false_eq_true, if_false] at h
            cases hrec : processItems faults (k + 2)
                (updateStock ps item.productId (-item.quantity)) rest with
            | error e => simp [hrec] at h
            | ok r =>
              obtain ⟨ps₁, total₁, ds₁, k₁⟩ := r
              simp only [hrec, Except.ok.injEq, Prod.mk.injEq] at h
              obtain ⟨rfl, -, -, -⟩ := h
              have hnd' : ((updateStock ps item.productId (-item.quantity)).map
                  (fun p => p.id)).Nodup := by
                rw [updateStock_map_id]; exact hnd
              have hst' := updateStock_nonneg_of_le ps item.productId item.quantity p
                hnd hst hfind (by omega)
              obtain ⟨hids, hstock'⟩ := ih (k + 2) _ ps₁ total₁ ds₁ k₁ hrec hnd' hst'
              exact ⟨by rw [hids, updateStock_map_id], hstock'⟩

/-- The running total of the item loop is the sum of the staged subtotals. -/
theorem processItems_ok_total (faults : Nat → Bool) :
    ∀ (items : List CheckoutItem) (k : Nat) (ps ps' : List Product) (total : Int)
      (ds : List TransactionDetail) (k' : Nat),
      processItems faults k ps items = .ok (ps', total, ds, k') →
      total = (ds.map (fun d => d.subtotal)).sum := by
  intro items
  induction items with
  | nil =>
    intro k ps ps' total ds k' h
    unfold processItems at h
    simp only [Except.ok.injEq, Prod.mk.injEq] at h
    obtain ⟨-, rfl, rfl, -⟩ := h
    rfl
  | cons item rest ih =>
    intro k ps ps' total ds k' h
    unfold processItems at h
    by_cases hf : faults k = true
    · simp [hf] at h
    · simp only [hf, Bool.false_eq_true, if_false] at h
      cases hfind : ps.find? (fun p => p.id == item.productId) with
      | none => simp [hfind] at h
      | some p =>
        simp only [hfind] at h
        by_cases hstock : p.stock < item.quantity
        · simp [hstock] at h
        · simp only [hstock, if_false] at h
          by_cases hf2 : faults (k + 1) = true
          · simp [hf2] at h
          · simp only [hf2, Bool.false_eq_true, if_false] at h
            cases hrec : processItems faults (k + 2)
                (updateStock ps item.productId (-item.quantity)) rest with
            | error e => simp [hrec] at h
            | ok r =>
              obtain ⟨ps₁, total₁, ds₁, k₁⟩ := r
              simp only [hrec, Except.ok.injEq, Prod.mk.injEq] at h
              obtain ⟨-, rfl, rfl, -⟩ := h
              have := ih (k + 2) _ ps₁ total₁ ds₁ k₁ hrec
              simp only [List.map_cons, List.sum_cons]
              omega

/-- Every staged detail of the item loop records the quantity of one of the
requested items. -/
theorem processItems_ok_qty (faults : Nat → Bool) :
    ∀ (items : List CheckoutItem) (k : Nat) (ps ps' : List Product) (total : Int)
      (ds : List TransactionDetail) (k' : Nat),
      processItems faults k ps items = .ok (ps', total, ds, k') →
      (∀ it ∈ items, 0 < it.quantity) →
      ∀ d ∈ ds, 0 < d.quantity := by
  intro items
  induction items with
  | nil =>
    intro k ps ps' total ds k' h _
    unfold processItems at h
    simp only [Except.ok.injEq, Prod.mk.injEq] at h
    obtain ⟨-, -, rfl, -⟩ := h
    intro d hd
    cases hd
  | cons item rest ih =>
    intro k ps ps' total ds k' h hq
    unfold processItems at h
    by_cases hf : faults k = true
    · simp [hf] at h
    · simp only [hf, Bool.false_eq_true, if_false] at h
      cases hfind : ps.find? (fun p => p.id == item.productId) with
      | none => simp [hfind] at h
      | some p =>
        simp only [hfind] at h
        by_cases hstock : p.stock < item.quantity
        · simp [hstock] at h
        · simp only [hstock, if_false] at h
          by_cases hf2 : faults (k + 1) = true
          · simp [hf2] at h
          · simp only [hf2, Bool.false_eq_true, if_false] at h
            cases hrec : processItems faults (k + 2)
                (updateStock ps item.productId (-item.quantity)) rest with
            | error e => simp [hrec] at h
            | ok r =>
              obtain ⟨ps₁, total₁, ds₁, k₁⟩ := r
              simp only [hrec, Except.ok.injEq, Prod.mk.injEq] at h
              obtain ⟨-, -, rfl, -⟩ := h
              intro d hd
              cases hd with
              | head => exact hq item (List.mem_cons_self _ _)
              | tail _ hmem =>
                exact ih (k + 2) _ ps₁ total₁ ds₁ k₁ hrec
                  (fun it hit => hq it (List.mem_cons_of_mem _ hit)) d hmem

/-- With non-negative prices and positive quantities every staged subtotal is
non-negative. -/
theorem processItems_ok_subtotal (faults : Nat → Bool) :
    ∀ (items : List CheckoutItem) (k : Nat) (ps ps' : List Product) (total : Int)
      (ds : List TransactionDetail) (k' : Nat),
      processItems faults k ps items = .ok (ps', total, ds, k') →
      (∀ p ∈ ps, 0 ≤ p.price) →
      (∀ it ∈ items, 0 < it.quantity) →
      ∀ d ∈ ds, 0 ≤ d.subtotal := by
  intro items
  induction items with
  | nil =>
    intro k ps ps' total ds k' h _ _
    unfold processItems at h
    simp only [Except.ok.injEq, Prod.mk.injEq] at h
    obtain ⟨-, -, rfl, -⟩ := h
    intro d hd
    cases hd
  | cons item rest ih =>
    intro k ps ps' total ds k' h hpr hq
    unfold processItems at h
    by_cases hf : faults k = true
    · simp [hf] at h
    · simp only [hf, Bool.false_eq_true, if_false] at h
      cases hfind : ps.find? (fun p => p.id == item.productId) with
      | none => simp [hfind] at h
      | some p =>
        simp only [hfind] at h
        by_cases hstock : p.stock < item.quantity
        · simp [hstock] at h
        · simp only [hstock, if_false] at h
          by_cases hf2 : faults (k + 1) = true
          · simp [hf2] at h
          · simp only [hf2, Bool.false_eq_true, if_false] at h
            cases hrec : processItems faults (k + 2)
                (updateStock ps item.productId (-item.quantity)) rest with
            | error e => simp [hrec] at h
            | ok r =>
              obtain ⟨ps₁, total₁, ds₁, k₁⟩ := r
              simp only [hrec, Except.ok.injEq, Prod.mk.injEq] at h
              obtain ⟨-, -, rfl, -⟩ := h
              intro d hd
              cases hd with
              | head =>
                have h1 : 0 ≤ p.price := hpr p (List.mem_of_find?_eq_some hfind)
                have h2 : 0 < item.quantity := hq item (List.mem_cons_self _ _)
                simp only []
                positivity
              | tail _ hmem =>
                exact ih (k + 2) _ ps₁ total₁ ds₁ k₁ hrec
                  (updateStock_price ps item.productId (-item.quantity) hpr)
                  (fun it hit => hq it (List.mem_cons_of_mem _ hit)) d hmem

/-- Passing service validation means every item has a positive product id and
a positive quantity. -/
theorem validateItems_none :
    ∀ items, validateItems items = none →
      ∀ it ∈ items, 0 < it.productId ∧ 0 < it.quantity := by
  intro items
  induction items with
  | nil => intro _ it hit; cases hit
  | cons item rest ih =>
    intro h it hit
    unfold validateItems at h
    by_cases h1 : item.productId ≤ 0
    · simp [h1] at h
    · by_cases h2 : item.quantity ≤ 0
      · simp [h1, h2] at h
      · simp only [if_neg h1, if_neg h2] at h
        cases hit with
        | head => exact ⟨by omega, by omega⟩
        | tail _ hmem => exact ih h it hmem

/-- The detail-insert loop only replaces the generated ids; the business
fields of each staged detail are unchanged. -/
theorem mem_assignIds :
    ∀ (ds : List TransactionDetail) (txId startId : Int) (d : TransactionDetail),
      d ∈ assignIds txId startId ds →
      ∃ d₀ ∈ ds, d.quantity = d₀.quantity ∧ d.subtotal = d₀.subtotal ∧
        d.unitPrice = d₀.unitPrice ∧ d.productId = d₀.productId := by
  intro ds
  induction ds with
  | nil => intro txId startId d hd; cases hd
  | cons d₁ rest ih =>
    intro txId startId d hd
    unfold assignIds at hd
    cases hd with
    | head => exact ⟨d₁, List.mem_cons_self _ _, rfl, rfl, rfl, rfl⟩
    | tail _ h =>
      obtain ⟨d₀, h0, hfields⟩ := ih txId (startId + 1) d h
      exact ⟨d₀, List.mem_cons_of_mem _ h0, hfields⟩

theorem assignIds_map_subtotal :
    ∀ (ds : List TransactionDetail) (txId startId : Int),
      (assignIds txId startId ds).map (fun d => d.subtotal) =
        ds.map (fun d => d.subtotal) := by
  intro ds
  induction ds with
  | nil => intro txId startId; rfl
  | cons d rest ih =>
    intro txId startId
    unfold assignIds
    simp only [List.map_cons]
    rw [ih txId (startId + 1)]

theorem assignIds_length :
    ∀ (ds : List TransactionDetail) (txId startId : Int),
      (assignIds txId startId ds).length = ds.length := by
  intro ds
  induction ds with
  | nil => intro txId startId; rfl
  | cons d rest ih =>
    intro txId startId
    unfold assignIds
    simp only [List.length_cons]
    rw [ih txId (startId + 1)]

/-- Characterization of `createTransaction`: it either fails and returns the
unchanged state, or the item loop succeeded, the header and details were
inserted, and the committed state and returned value are as staged. -/
theorem createTransaction_spec (faults : Nat → Bool) (today : Nat) (s : DBState)
    (req : CheckoutRequest) :
    ((createTransaction faults today s req).2 = s ∧
      ∀ t, (createTransaction faults today s req).1 ≠ .ok t) ∨
    ∃ ps' total ds k,
      processItems faults 0 s.products req.items = .ok (ps', total, ds, k) ∧
      createTransaction faults today s req =
        (.ok { id := s.nextTxId,
               totalAmount := total - (if req.discount > total then total else req.discount),
               paymentMethod := if req.paymentMethod = "" then "cash" else req.paymentMethod,
               discount := if req.discount > total then total else req.discount,
               notes := req.notes, status := "active", createdAt := today,
               details := assignIds s.nextTxId s.nextDetailId ds },
         { s with
             products := ps'
             transactions := s.transactions ++
               [{ id := s.nextTxId,
                  totalAmount := total - (if req.discount > total then total else req.discount),
                  paymentMethod := if req.paymentMethod = "" then "cash" else req.paymentMethod,
                  discount := if req.discount > total then total else req.discount,
                  notes := req.notes, status := "active", createdAt := today }]
             transactionDetails := s.transactionDetails ++
               (assignIds s.nextTxId s.nextDetailId ds).map detailToRow
             nextTxId := s.nextTxId + 1
             nextDetailId := s.nextDetailId + (assignIds s.nextTxId s.nextDetailId ds).length }) := by
  unfold createTransaction
  cases hp : processItems faults 0 s.products req.items with
  | error e => left; exact ⟨rfl, fun t h => by simp at h⟩
  | ok r =>
    obtain ⟨ps', total, ds, k⟩ := r
    by_cases hf1 : faults k = true
    · left
      constructor
      · simp [hf1]
      · intro t ht
        simp [hf1] at ht
    · by_cases hf2 : ((List.range (assignIds s.nextTxId s.nextDetailId ds).length).any
          (fun i => faults (k + 1 + i))) = true
      · left
        constructor
        · simp [hf1, hf2]
        · intro t ht
          simp [hf1, hf2] at ht
      · by_cases hf3 : faults (k + 1 + (assignIds s.nextTxId s.nextDetailId ds).length) = true
        · left
          constructor
          · simp [hf1, hf2, hf3]
          · intro t ht
            simp [hf1, hf2, hf3] at ht
        · right
          exact ⟨ps', total, ds, k, rfl, by simp [hf1, hf2, hf3]⟩

/-- The checkout service either rejects the request with the state unchanged
or hands the validated request to the repository. -/
theorem checkout_snd (faults : Nat → Bool) (today : Nat) (s : DBState)
    (req : CheckoutRequest) :
    (checkout faults today s req).2 = s ∨
    (checkout faults today s req = createTransaction faults today s req ∧
      validateItems req.items = none ∧ req.items.length ≠ 0) := by
  unfold checkout
  by_cases h0 : req.items.length = 0
  · left; simp [h0]
  · cases hv : validateItems req.items with
    | some e => left; simp [h0, hv]
    | none => right; exact ⟨by simp [h0, hv], rfl, h0⟩

/-- Characterization of the stock-restore loop: when it succeeds, every
product's stock has grown by the total quantity recorded for it in the
processed detail rows. -/
theorem restoreStock_ok_spec (faults : Nat → Bool) :
    ∀ (items : List DetailRow) (k : Nat) (ps ps' : List Product) (k' : Nat),
      restoreStock faults k ps items = .ok (ps', k') →
      ps' = ps.map (fun p => { p with stock := p.stock +
        ((items.filter (fun d => d.productId == p.id)).map (fun d => d.quantity)).sum }) := by
  intro items
  induction items with
  | nil =>
    intro k ps ps' k' h
    unfold restoreStock at h
    simp only [Except.ok.injEq, Prod.mk.injEq] at h
    obtain ⟨rfl, -⟩ := h
    simp only [List.filter_nil, List.map_nil, List.sum_nil, add_zero]
    have hfun : (fun p : Product =>
        ({ p with stock := p.stock } : Product)) = fun p => p := funext fun p => rfl
    rw [hfun, List.map_id']
  | cons d rest ih =>
    intro k ps ps' k' h
    unfold restoreStock at h
    by_cases hf : faults k = true
    · simp [hf] at h
    · simp only [hf, Bool.false_eq_true, if_false] at h
      have hrec := ih (k + 1) (updateStock ps d.productId d.quantity) ps' k' h
      subst hrec
      unfold updateStock
      rw [List.map_map]
      apply List.map_congr_left
      intro p hp
      dsimp only [Function.comp]
      by_cases hid : p.id = d.productId
      · have hb : (d.productId == p.id) = true := by simpa using hid.symm
        have hb' : (p.id == d.productId) = true := by simpa using hid
        simp only [hb', if_true, List.filter_cons, hb, List.map_cons, List.sum_cons]
        simp [Int.add_assoc]
      · have hb : (d.productId == p.id) = false := by simpa using fun h => hid h.symm
        have hb' : (p.id == d.productId) = false := by simpa using hid
        simp only [hb', Bool.false_eq_true, if_false, List.filter_cons, hb]

/-- The quantity a void restores to a product is non-negative whenever the
recorded line-item quantities are positive. -/
theorem restoredQty_nonneg (s : DBState) (tid pid : Int)
    (hq : ∀ d ∈ s.transactionDetails, 0 < d.quantity) :
    0 ≤ restoredQty s tid pid := by
  unfold restoredQty
  apply List.sum_nonneg
  intro x hx
  obtain ⟨d, hd, rfl⟩ := List.mem_map.mp hx
  have := hq d (List.mem_of_mem_filter hd)
  omega

theorem map_stockAdjust_id (ps : List Product) (g : Product → Int) :
    (ps.map (fun p => { p with stock := g p })).map (fun p => p.id) =
      ps.map (fun p => p.id) := by
  rw [List.map_map]
  rfl

/-- Characterization of `voidTransaction`: either it fails without touching
the state, or the order exists, was not yet void, and the committed state has
every product's stock grown by that order's recorded quantities and the order
marked void. -/
theorem voidTransaction_spec (faults : Nat → Bool) (s : DBState) (tid : Int) :
    ((voidTransaction faults s tid).2 = s ∧
      (voidTransaction faults s tid).1 ≠ .ok ()) ∨
    (∃ t, lookupTx s tid = some t ∧ t.status ≠ "void" ∧
      (voidTransaction faults s tid).1 = .ok () ∧
      (voidTransaction faults s tid).2 =
        { s with
            products := s.products.map
              (fun p => { p with stock := p.stock + restoredQty s tid p.id })
            transactions := s.transactions.map
              (fun t' => if t'.id == tid then { t' with status := "void" } else t') }) := by
  unfold voidTransaction
  by_cases h0 : faults 0 = true
  · left; simp [h0]
  · simp only [h0, Bool.false_eq_true, if_false]
    cases hfind : lookupTx s tid with
    | none => left; simp
    | some t =>
      by_cases hstat : t.status = "void"
      · left; simp [hstat]
      · by_cases h1 : faults 1 = true
        · left; simp [hstat, h1]
        · simp only [hstat, h1, Bool.false_eq_true, if_false]
          cases hres : restoreStock faults 2 s.products
              (s.transactionDetails.filter (fun d => d.transactionId == tid)) with
          | error e => left; simp [hres]
          | ok r =>
            obtain ⟨ps', k⟩ := r
            by_cases hk : faults k = true
            · left; simp [hres, hk]
            · by_cases hk1 : faults (k + 1) = true
              · left; simp [hres, hk, hk1]
              · right
                refine ⟨t, rfl, hstat, by simp [hres, hk, hk1], ?_⟩
                simp only [hres, hk, hk1, Bool.false_eq_true, if_false]
                have := restoreStock_ok_spec faults _ 2 s.products ps' k hres
                subst this
                congr 1
                apply List.map_congr_left
                intro p _
                congr 1
                unfold restoredQty
                rw [List.filter_filter]
                have hpred : List.filter
                      (fun a => a.productId == p.id && a.transactionId == tid)
                      s.transactionDetails =
                    List.filter (fun d => d.transactionId == tid && d.productId == p.id)
                      s.transactionDetails := by
                  apply List.filter_congr
                  intro d _
                  rw [Bool.and_comm]
                rw [hpred]

/-- `find?` commutes with mapping a function that does not change the
predicate's verdict. -/
theorem find?_map_comm {α : Type _} (f : α → α) (p : α → Bool)
    (hf : ∀ a, p (f a) = p a) :
    ∀ l : List α, (l.map f).find? p = (l.find? p).map f := by
  intro l
  induction l with
  | nil => rfl
  | cons a rest ih =>
    by_cases h : p a = true
    · rw [List.map_cons, List.find?_cons_of_pos _ (by rw [hf a]; exact h),
        List.find?_cons_of_pos _ h, Option.map_some']
    · rw [List.map_cons, List.find?_cons_of_neg _ (by rw [hf a]; simpa using h),
        List.find?_cons_of_neg _ (by simpa using h), ih]

/-- With healthy storage the restore loop always succeeds. -/
theorem restoreStock_noFaults_ok :
    ∀ (items : List DetailRow) (k : Nat) (ps : List Product),
      ∃ r, restoreStock noFaults k ps items = .ok r := by
  intro items
  induction items with
  | nil => intro k ps; exact ⟨(ps, k), rfl⟩
  | cons d rest ih =>
    intro k ps
    unfold restoreStock
    simp only [noFaults, Bool.false_eq_true, if_false]
    exact ih (k + 1) (updateStock ps d.productId d.quantity)

/-- With healthy storage, voiding an existing non-void order succeeds. -/
theorem voidTransaction_runs (s : DBState) (tid : Int) (t : TransactionRow)
    (hfind : lookupTx s tid = some t) (hstat : t.status ≠ "void") :
    (voidTransaction noFaults s tid).1 = .ok () := by
  obtain ⟨⟨ps', k⟩, hrs⟩ := restoreStock_noFaults_ok
    (s.transactionDetails.filter (fun d => d.transactionId == tid)) 2 s.products
  unfold voidTransaction
  simp [noFaults, hfind, hstat, hrs]

/-- Rollback lemma for the repository checkout: every error path of
`createTransaction` returns the unchanged input state. -/
theorem createTransaction_rollback (faults : Nat → Bool) (today : Nat) (s : DBState)
    (req : CheckoutRequest) (e : RepoError)
    (h : (createTransaction faults today s req).1 = .error e) :
    (createTransaction faults today s req).2 = s := by
  unfold createTransaction at h ⊢
  cases hp : processItems faults 0 s.products req.items with
  | error e' => simp [hp]
  | ok r =>
    obtain ⟨ps', total, ds, k⟩ := r
    simp only [hp] at h ⊢
    split at h
    · simp_all
    · split at h
      · simp_all
      · split at h
        · simp_all
        · simp_all

/-- C1: every failing checkout (validation error, missing product,
insufficient combined stock, or an injected storage fault at any statement)
leaves the entire state — every product's stock and both order tables —
exactly as it was, for every request and every position of the failing
item. -/
theorem checkout_all_or_nothing (faults : Nat → Bool) (today : Nat) (s : DBState)
    (req : CheckoutRequest) (e : RepoError)
    (h : (checkout faults today s req).1 = .error e) :
    (checkout faults today s req).2 = s := by
  by_cases h0 : req.items.length = 0
  · simp [checkout, h0]
  · cases hv : validateItems req.items with
    | some e' => simp [checkout, h0, hv]
    | none =>
      simp only [checkout, h0, hv, if_false] at h ⊢
      exact createTransaction_rollback faults today s req e h

/-- Concrete witness for C1: a one-item request for an absent product fails
with `productNotFound` and leaves the state unchanged. -/
theorem checkout_all_or_nothing_witness :
    (checkout noFaults 0 ⟨[⟨1, "A", 10, 5, none⟩], [], [], [], 1, 1⟩
        ⟨[⟨1, 9⟩], "cash", 0, ""⟩).1 = .error (.insufficientStock "A" 5 9) ∧
    (checkout noFaults 0 ⟨[⟨1, "A", 10, 5, none⟩], [], [], [], 1, 1⟩
        ⟨[⟨1, 9⟩], "cash", 0, ""⟩).2 = ⟨[⟨1, "A", 10, 5, none⟩], [], [], [], 1, 1⟩ :=
  ⟨by decide,
   checkout_all_or_nothing noFaults 0 ⟨[⟨1, "A", 10, 5, none⟩], [], [], [], 1, 1⟩
     ⟨[⟨1, 9⟩], "cash", 0, ""⟩ (.insufficientStock "A" 5 9) (by decide)⟩

/-- C2: from any state satisfying the schema/data-model invariants (unique
product ids, stock ≥ 0, recorded line quantities > 0), both a checkout —
whose decrement is guarded by the stock check against the in-transaction
view, cumulatively across repeated items — and a void — which only adds the
recorded positive quantities — leave every product's stock ≥ 0 (and the
invariants intact). -/
theorem stock_never_negative (faults : Nat → Bool) (today : Nat) (s : DBState)
    (req : CheckoutRequest) (tid : Int) (h : WellFormed s) :
    WellFormed (checkout faults today s req).2 ∧
    WellFormed (voidTransaction faults s tid).2 := by
  obtain ⟨hnd, hst, hqty⟩ := h
  constructor
  · rcases checkout_snd faults today s req with hck | ⟨hck, hv, -⟩
    · rw [hck]; exact ⟨hnd, hst, hqty⟩
    · rw [show (checkout faults today s req).2 = (createTransaction faults today s req).2 from
        congrArg Prod.snd hck]
      rcases createTransaction_spec faults today s req with ⟨hs, -⟩ | ⟨ps', total, ds, k, hp, hres⟩
      · rw [hs]; exact ⟨hnd, hst, hqty⟩
      · rw [hres]
        obtain ⟨hids, hstocks⟩ :=
          processItems_ok_products faults req.items 0 s.products ps' total ds k hp hnd hst
        refine ⟨by rw [hids]; exact hnd, hstocks, ?_⟩
        intro d hd
        rcases List.mem_append.mp hd with hold | hnew
        · exact hqty d hold
        · obtain ⟨d₁, hd₁, rfl⟩ := List.mem_map.mp hnew
          obtain ⟨d₀, hd₀, hq, -, -, -⟩ := mem_assignIds ds s.nextTxId s.nextDetailId d₁ hd₁
          have hpos := processItems_ok_qty faults req.items 0 s.products ps' total ds k hp
            (fun it hit => (validateItems_none req.items hv it hit).2) d₀ hd₀
          show 0 < d₁.quantity
          omega
  · rcases voidTransaction_spec faults s tid with ⟨hvd, -⟩ | ⟨t, -, -, -, hvd⟩
    · rw [hvd]; exact ⟨hnd, hst, hqty⟩
    · rw [hvd]
      refine ⟨by rw [map_stockAdjust_id]; exact hnd, ?_, hqty⟩
      intro q hq
      obtain ⟨p, hp, rfl⟩ := List.mem_map.mp hq
      have h1 := hst p hp
      have h2 := restoredQty_nonneg s tid p.id hqty
      show 0 ≤ p.stock + restoredQty s tid p.id
      omega

/-- Concrete witness for C2: a two-line checkout of the same product and a
void, from a small well-formed state, both preserve the invariants. -/
theorem stock_never_negative_witness :
    WellFormed ⟨[⟨1, "A", 10, 5, none⟩], [],
      [⟨1, 20, "cash", 0, "", "active", 0⟩], [⟨1, 1, 1, 2, 10, 20⟩], 2, 2⟩ ∧
    WellFormed (checkout noFaults 0
      ⟨[⟨1, "A", 10, 5, none⟩], [], [⟨1, 20, "cash", 0, "", "active", 0⟩],
        [⟨1, 1, 1, 2, 10, 20⟩], 2, 2⟩ ⟨[⟨1, 2⟩, ⟨1, 3⟩], "cash", 0, ""⟩).2 ∧
    WellFormed (voidTransaction noFaults
      ⟨[⟨1, "A", 10, 5, none⟩], [], [⟨1, 20, "cash", 0, "", "active", 0⟩],
        [⟨1, 1, 1, 2, 10, 20⟩], 2, 2⟩ 1).2 :=
  ⟨by decide,
   (stock_never_negative noFaults 0
     ⟨[⟨1, "A", 10, 5, none⟩], [], [⟨1, 20, "cash", 0, "", "active", 0⟩],
       [⟨1, 1, 1, 2, 10, 20⟩], 2, 2⟩ ⟨[⟨1, 2⟩, ⟨1, 3⟩], "cash", 0, ""⟩ 1 (by decide)).1,
   (stock_never_negative noFaults 0
     ⟨[⟨1, "A", 10, 5, none⟩], [], [⟨1, 20, "cash", 0, "", "active", 0⟩],
       [⟨1, 1, 1, 2, 10, 20⟩], 2, 2⟩ ⟨[⟨1, 2⟩, ⟨1, 3⟩], "cash", 0, ""⟩ 1 (by decide)).2⟩

theorem find?_filter_eq {α : Type _} (p q : α → Bool) :
    ∀ l : List α, (l.filter p).find? q = l.find? (fun a => p a && q a) := by
  intro l
  induction l with
  | nil => rfl
  | cons a rest ih =>
    by_cases hp : p a = true
    · rw [List.filter_cons_of_pos hp]
      by_cases hq : q a = true
      · rw [List.find?_cons_of_pos _ hq, List.find?_cons_of_pos _ (by simp [hp, hq])]
      · rw [List.find?_cons_of_neg _ (by simpa using hq),
          List.find?_cons_of_neg _ (by simp [hq]), ih]
    · rw [List.filter_cons_of_neg (by simpa using hp),
        List.find?_cons_of_neg _ (by simp [hp]), ih]

/-- Strengthening the predicate of a successful `find?` by a condition the
found element satisfies does not change the result. -/
theorem find?_and_left {α : Type _} {p q : α → Bool} {x : α} :
    ∀ {l : List α}, l.find? q = some x → p x = true →
      l.find? (fun a => p a && q a) = some x := by
  intro l
  induction l with
  | nil => intro h _; cases h
  | cons a rest ih =>
    intro h hp
    by_cases ha : q a = true
    · rw [List.find?_cons_of_pos _ ha] at h
      injection h with h
      subst h
      exact List.find?_cons_of_pos _ (by simp [ha, hp])
    · rw [List.find?_cons_of_neg _ (by simpa using ha)] at h
      rw [List.find?_cons_of_neg _ (by simp [ha])]
      exact ih h hp

theorem filterMap_filter_eq {α β : Type _} (p : α → Bool) (f : α → Option β) :
    ∀ l : List α, (l.filter p).filterMap f =
      l.filterMap (fun a => if p a then f a else none) := by
  intro l
  induction l with
  | nil => rfl
  | cons a rest ih =>
    by_cases h : p a = true
    · rw [List.filter_cons_of_pos h, List.filterMap_cons, List.filterMap_cons]
      simp only [h, if_true]
      cases f a <;> simp [ih]
    · rw [List.filter_cons_of_neg (by simpa using h), List.filterMap_cons]
      simp only [h, Bool.false_eq_true, if_false]
      exact ih

theorem lookupTx_restrictActive (s : DBState) (tid : Int) :
    lookupTx (restrictActive s) tid =
      s.transactions.find? (fun t => (t.status == "active") && (t.id == tid)) := by
  unfold lookupTx restrictActive
  dsimp only
  rw [find?_filter_eq]

/-- Dropping the void orders' rows before the join changes nothing: a detail
row joins (actively) in `restrictActive s` exactly as it does in `s`. -/
theorem rowOf_restrictActive (s : DBState) (pred : TransactionRow → Bool) (d : DetailRow) :
    (if (match lookupTx s d.transactionId with
         | some t => t.status == "active"
         | none => false) = true
     then rowOf (restrictActive s) pred d else none) = rowOf s pred d := by
  cases hfind : lookupTx s d.transactionId with
  | none =>
    rw [if_neg (by simp)]
    unfold rowOf
    rw [hfind]
  | some t =>
    by_cases hact : (t.status == "active") = true
    · rw [if_pos (by simp [hact])]
      unfold rowOf
      rw [lookupTx_restrictActive, find?_and_left hfind hact, hfind]
      rfl
    · rw [if_neg (by simp [hact])]
      unfold rowOf
      rw [hfind]
      cases hp : lookupProduct s d.productId with
      | none => rfl
      | some p =>
        have hcond : (t.status == "active" && pred t) = false := by simp [hact]
        simp [hcond]

theorem salesRows_restrictActive (s : DBState) (pred : TransactionRow → Bool) :
    salesRows (restrictActive s) pred = salesRows s pred := by
  show (s.transactionDetails.filter
      (fun d => match lookupTx s d.transactionId with
        | some t => t.status == "active"
        | none => false)).filterMap (rowOf (restrictActive s) pred) =
    s.transactionDetails.filterMap (rowOf s pred)
  rw [filterMap_filter_eq]
  apply List.filterMap_congr
  intro d _
  exact rowOf_restrictActive s pred d

theorem revenueRows_restrictActive (s : DBState) (pred : TransactionRow → Bool) :
    revenueRows (restrictActive s) pred = revenueRows s pred := by
  unfold revenueRows restrictActive
  dsimp only
  rw [List.filter_filter]
  apply List.filter_congr
  intro t _
  cases h : (t.status == "active") <;> simp [h]

/-- A checkout that returns an order passed the service validation and ran
the repository transaction. -/
theorem checkout_ok (faults : Nat → Bool) (today : Nat) (s : DBState)
    (req : CheckoutRequest) (t : Transaction)
    (h : (checkout faults today s req).1 = .ok t) :
    checkout faults today s req = createTransaction faults today s req ∧
    validateItems req.items = none ∧ req.items.length ≠ 0 := by
  unfold checkout at h ⊢
  by_cases h0 : req.items.length = 0
  · simp [h0] at h
  · cases hv : validateItems req.items with
    | some e => simp [h0, hv] at h
    | none => exact ⟨by simp [h0, hv], rfl, h0⟩

/-- C3 counterexample: `CreateTransaction` clamps the discount only from
above (`discount > totalAmount`); a requested discount of −5 on a 10-unit
sale is persisted as −5, outside the claimed interval `[0, sum(subtotal)]`,
and yields `total_amount = 15 > sum(subtotal)`. -/
theorem discount_not_clamped_below :
    ((checkout noFaults 0 ⟨[⟨1, "A", 10, 5, none⟩], [], [], [], 1, 1⟩
        ⟨[⟨1, 1⟩], "cash", -5, ""⟩).1.toOption.map
      (fun t => (t.discount, t.totalAmount, (t.details.map (fun d => d.subtotal)).sum))) =
      some (-5, 15, 10) ∧ ¬ (0 : Int) ≤ -5 := by
  constructor
  · rfl
  · decide

/-- C3 amended: for every successful checkout, the returned and persisted
order satisfies `total_amount = sum(line.subtotal) − discount` with
`discount ≤ sum(line.subtotal)` — the requested discount is lowered to the
running total when it exceeds it, but it is NOT raised to 0: only when the
requested discount is non-negative (prices being non-negative, as product
validation guarantees) does `0 ≤ discount ≤ sum(line.subtotal)` hold. -/
theorem checkout_total_reconciliation (faults : Nat → Bool) (today : Nat)
    (s : DBState) (req : CheckoutRequest) (t : Transaction)
    (hpr : ∀ p ∈ s.products, 0 ≤ p.price)
    (h : (checkout faults today s req).1 = .ok t) :
    t.totalAmount = (t.details.map (fun d => d.subtotal)).sum - t.discount ∧
    t.discount ≤ (t.details.map (fun d => d.subtotal)).sum ∧
    (0 ≤ req.discount → 0 ≤ t.discount) ∧
    txRowOf t ∈ (checkout faults today s req).2.transactions := by
  obtain ⟨heq, hv, -⟩ := checkout_ok faults today s req t h
  rw [heq] at h ⊢
  rcases createTransaction_spec faults today s req with ⟨-, hne⟩ | ⟨ps', total, ds, k, hp, hres⟩
  · exact absurd h (hne t)
  · rw [hres] at h ⊢
    dsimp only at h ⊢
    injection h with h
    subst h
    dsimp only
    have hsum : ((assignIds s.nextTxId s.nextDetailId ds).map (fun d => d.subtotal)).sum
        = total := by
      rw [assignIds_map_subtotal]
      exact (processItems_ok_total faults req.items 0 s.products ps' total ds k hp).symm
    have htotal : 0 ≤ req.discount → 0 ≤ total := by
      intro _
      rw [processItems_ok_total faults req.items 0 s.products ps' total ds k hp]
      apply List.sum_nonneg
      intro x hx
      obtain ⟨d, hd, rfl⟩ := List.mem_map.mp hx
      exact processItems_ok_subtotal faults req.items 0 s.products ps' total ds k hp hpr
        (fun it hit => (validateItems_none req.items hv it hit).2) d hd
    refine ⟨?_, ?_, ?_, ?_⟩
    · rw [hsum]
    · rw [hsum]
      split <;> omega
    · intro hreq
      have := htotal hreq
      split <;> omega
    · dsimp only [txRowOf]
      exact List.mem_append.mpr (Or.inr (List.mem_singleton.mpr rfl))

/-- Concrete witness for the amended C3: a checkout of two 10-unit items with
a requested discount of 3 yields total 17 = 20 − 3 with the discount inside
`[0, 20]`, and the header row is persisted. -/
theorem checkout_total_reconciliation_witness :
    (∀ p ∈ (⟨[⟨1, "A", 10, 5, none⟩], [], [], [], 1, 1⟩ : DBState).products, 0 ≤ p.price) ∧
    (checkout noFaults 0 ⟨[⟨1, "A", 10, 5, none⟩], [], [], [], 1, 1⟩
        ⟨[⟨1, 2⟩], "cash", 3, ""⟩).1 =
      .ok ⟨1, 17, "cash", 3, "", "active", 0, [⟨1, 1, 1, "A", 2, 10, 20⟩]⟩ ∧
    (⟨1, 17, "cash", 3, "", "active", 0, [⟨1, 1, 1, "A", 2, 10, 20⟩]⟩ : Transaction).totalAmount =
      ((⟨1, 17, "cash", 3, "", "active", 0, [⟨1, 1, 1, "A", 2, 10, 20⟩]⟩ : Transaction).details.map
        (fun d => d.subtotal)).sum -
        (⟨1, 17, "cash", 3, "", "active", 0, [⟨1, 1, 1, "A", 2, 10, 20⟩]⟩ : Transaction).discount ∧
    txRowOf ⟨1, 17, "cash", 3, "", "active", 0, [⟨1, 1, 1, "A", 2, 10, 20⟩]⟩ ∈
      (checkout noFaults 0 ⟨[⟨1, "A", 10, 5, none⟩], [], [], [], 1, 1⟩
        ⟨[⟨1, 2⟩], "cash", 3, ""⟩).2.transactions :=
  ⟨by decide, by decide,
   (checkout_total_reconciliation noFaults 0 ⟨[⟨1, "A", 10, 5, none⟩], [], [], [], 1, 1⟩
     ⟨[⟨1, 2⟩], "cash", 3, ""⟩ ⟨1, 17, "cash", 3, "", "active", 0, [⟨1, 1, 1, "A", 2, 10, 20⟩]⟩
     (by decide) (by decide)).1,
   (checkout_total_reconciliation noFaults 0 ⟨[⟨1, "A", 10, 5, none⟩], [], [], [], 1, 1⟩
     ⟨[⟨1, 2⟩], "cash", 3, ""⟩ ⟨1, 17, "cash", 3, "", "active", 0, [⟨1, 1, 1, "A", 2, 10, 20⟩]⟩
     (by decide) (by decide)).2.2.2⟩

/-- C4: whenever a void succeeds — in particular the first void of an order
created by a successful checkout — it increments each referenced product's
stock by exactly that order's recorded line quantities, sets the order's
status to void, and changes no line item; an immediately following second
void of the same order fails with the "already voided" conflict error and
changes neither stock nor any order field. -/
theorem void_restores_then_conflicts (faults : Nat → Bool) (s : DBState) (tid : Int)
    (h : (voidTransaction faults s tid).1 = .ok ()) :
    (voidTransaction faults s tid).2.products =
      s.products.map (fun p => { p with stock := p.stock + restoredQty s tid p.id }) ∧
    (voidTransaction faults s tid).2.transactions =
      s.transactions.map
        (fun t' => if t'.id == tid then { t' with status := "void" } else t') ∧
    (voidTransaction faults s tid).2.transactionDetails = s.transactionDetails ∧
    (∀ t' ∈ (voidTransaction faults s tid).2.transactions,
      t'.id = tid → t'.status = "void") ∧
    voidTransaction noFaults (voidTransaction faults s tid).2 tid =
      (.error .alreadyVoided, (voidTransaction faults s tid).2) := by
  rcases voidTransaction_spec faults s tid with ⟨-, hne⟩ | ⟨t, hfind, -, -, hs'⟩
  · exact absurd h hne
  · rw [hs']
    refine ⟨rfl, rfl, rfl, ?_, ?_⟩
    · intro t' ht' hid
      obtain ⟨a, ha, rfl⟩ := List.mem_map.mp ht'
      revert hid
      split
      · intro _; rfl
      case isFalse hb => intro hid; exact absurd hid (by simpa using hb)
    · have htid : (t.id == tid) = true := by
        simpa using List.find?_some hfind
      have hlk : lookupTx
          { s with
              products := s.products.map
                (fun p => { p with stock := p.stock + restoredQty s tid p.id })
              transactions := s.transactions.map
                (fun t' => if t'.id == tid then { t' with status := "void" } else t') }
          tid = some { t with status := "void" } := by
        show (s.transactions.map
          (fun t' => if t'.id == tid then { t' with status := "void" } else t')).find?
            (fun t' => t'.id == tid) = _
        rw [find?_map_comm _ _ ?hpred]
        case hpred =>
          intro a
          dsimp only
          split <;> rfl
        rw [show s.transactions.find? (fun t' => t'.id == tid) = some t from hfind,
          Option.map_some']
        congr 1
        dsimp only
        rw [if_pos htid]
      unfold voidTransaction
      simp only [noFaults, Bool.false_eq_true, if_false, hlk]
      rw [if_pos trivial]

/-- Concrete witness for C4: voiding order 1 (3 units of product 1, stock 2)
succeeds, and a second void of the same order returns the conflict error and
the unchanged state. -/
theorem void_restores_then_conflicts_witness :
    (voidTransaction noFaults ⟨[⟨1, "A", 10, 2, none⟩], [],
        [⟨1, 30, "cash", 0, "", "active", 0⟩], [⟨1, 1, 1, 3, 10, 30⟩], 2, 2⟩ 1).1 = .ok () ∧
    voidTransaction noFaults
        (voidTransaction noFaults ⟨[⟨1, "A", 10, 2, none⟩], [],
          [⟨1, 30, "cash", 0, "", "active", 0⟩], [⟨1, 1, 1, 3, 10, 30⟩], 2, 2⟩ 1).2 1 =
      (.error .alreadyVoided,
       (voidTransaction noFaults ⟨[⟨1, "A", 10, 2, none⟩], [],
          [⟨1, 30, "cash", 0, "", "active", 0⟩], [⟨1, 1, 1, 3, 10, 30⟩], 2, 2⟩ 1).2) :=
  ⟨by decide,
   (void_restores_then_conflicts noFaults ⟨[⟨1, "A", 10, 2, none⟩], [],
      [⟨1, 30, "cash", 0, "", "active", 0⟩], [⟨1, 1, 1, 3, 10, 30⟩], 2, 2⟩ 1
      (by decide)).2.2.2.2⟩

/-- C10: voiding an active order whose line items include a reference to a
product id absent from the products table still succeeds: the increment for
the missing product matches zero rows and raises no error, every existing
referenced product is restored by its recorded quantity, no row for the
missing product appears, and the order is committed as void. -/
theorem void_with_dangling_product_reference (s : DBState) (tid m : Int)
    (t : TransactionRow) (hfind : lookupTx s tid = some t)
    (hstat : t.status ≠ "void") (hdangling : lookupProduct s m = none) :
    (voidTransaction noFaults s tid).1 = .ok () ∧
    (voidTransaction noFaults s tid).2.products =
      s.products.map (fun p => { p with stock := p.stock + restoredQty s tid p.id }) ∧
    (∀ p ∈ (voidTransaction noFaults s tid).2.products, p.id ≠ m) ∧
    (∀ t' ∈ (voidTransaction noFaults s tid).2.transactions,
      t'.id = tid → t'.status = "void") := by
  have hok := voidTransaction_runs s tid t hfind hstat
  rcases voidTransaction_spec noFaults s tid with ⟨-, hne⟩ | ⟨t₂, -, -, -, hs'⟩
  · exact absurd hok hne
  · refine ⟨hok, by rw [hs'], ?_, ?_⟩
    · rw [hs']
      intro p hp
      obtain ⟨p₀, hp₀, rfl⟩ := List.mem_map.mp hp
      show p₀.id ≠ m
      intro hm
      have hnone := List.find?_eq_none.mp hdangling p₀ hp₀
      exact hnone (by simpa using hm)
    · rw [hs']
      intro t' ht' hid
      obtain ⟨a, ha, rfl⟩ := List.mem_map.mp ht'
      revert hid
      split
      · intro _; rfl
      case isFalse hb => intro hid; exact absurd hid (by simpa using hb)

/-- Concrete witness for C10: order 1 references existing product 1 (qty 3)
and missing product 99 (qty 1); the void succeeds, restores product 1 to
stock 5, creates no row for product 99, and marks the order void. -/
theorem void_with_dangling_product_reference_witness :
    (voidTransaction noFaults ⟨[⟨1, "A", 10, 2, none⟩], [],
        [⟨1, 35, "cash", 0, "", "active", 0⟩],
        [⟨1, 1, 1, 3, 10, 30⟩, ⟨2, 1, 99, 1, 5, 5⟩], 2, 3⟩ 1).1 = .ok () ∧
    (voidTransaction noFaults ⟨[⟨1, "A", 10, 2, none⟩], [],
        [⟨1, 35, "cash", 0, "", "active", 0⟩],
        [⟨1, 1, 1, 3, 10, 30⟩, ⟨2, 1, 99, 1, 5, 5⟩], 2, 3⟩ 1).2.products =
      (⟨[⟨1, "A", 10, 2, none⟩], [], [⟨1, 35, "cash", 0, "", "active", 0⟩],
        [⟨1, 1, 1, 3, 10, 30⟩, ⟨2, 1, 99, 1, 5, 5⟩], 2, 3⟩ : DBState).products.map
        (fun p => { p with stock := p.stock +
                             restoredQty (⟨[⟨1, "A", 10, 2, none⟩], [],
                               [⟨1, 35, "cash", 0, "", "active", 0⟩],
                               [⟨1, 1, 1, 3, 10, 30⟩, ⟨2, 1, 99, 1, 5, 5⟩], 2, 3⟩ : DBState)
                               1 p.id }) :=
  ⟨(void_with_dangling_product_reference ⟨[⟨1, "A", 10, 2, none⟩], [],
      [⟨1, 35, "cash", 0, "", "active", 0⟩],
      [⟨1, 1, 1, 3, 10, 30⟩, ⟨2, 1, 99, 1, 5, 5⟩], 2, 3⟩ 1 99
      ⟨1, 35, "cash", 0, "", "active", 0⟩ (by decide) (by decide) (by decide)).1,
   (void_with_dangling_product_reference ⟨[⟨1, "A", 10, 2, none⟩], [],
      [⟨1, 35, "cash", 0, "", "active", 0⟩],
      [⟨1, 1, 1, 3, 10, 30⟩, ⟨2, 1, 99, 1, 5, 5⟩], 2, 3⟩ 1 99
      ⟨1, 35, "cash", 0, "", "active", 0⟩ (by decide) (by decide) (by decide)).2.1⟩

/-- C6: every reporting aggregate — daily report, date-range report, report
summary (revenue, count, best seller, category breakdown), and the dashboard
snapshot — is invariant under deleting the void orders and their line items
(`restrictActive`), i.e. ranges only over active orders; and after a
successful void the voided order is gone from the active restriction, so its
contribution is removed from all of these aggregates. -/
theorem reports_exclude_void (s : DBState) (today startD endD : Nat)
    (faults : Nat → Bool) (tid : Int) :
    getDailySalesReport (restrictActive s) today = getDailySalesReport s today ∧
    getSalesReportByDateRange (restrictActive s) startD endD =
      getSalesReportByDateRange s startD endD ∧
    getReportSummary (restrictActive s) startD endD = getReportSummary s startD endD ∧
    getDashboardStats (restrictActive s) today = getDashboardStats s today ∧
    ((voidTransaction faults s tid).1 = .ok () →
      (restrictActive (voidTransaction faults s tid).2).transactions.filter
        (fun t' => t'.id == tid) = []) := by
  refine ⟨?_, ?_, ?_, ?_, ?_⟩
  · unfold getDailySalesReport
    rw [revenueRows_restrictActive, salesRows_restrictActive]
  · unfold getSalesReportByDateRange
    rw [revenueRows_restrictActive, salesRows_restrictActive]
  · unfold getReportSummary
    rw [revenueRows_restrictActive, salesRows_restrictActive]
    rfl
  · unfold getDashboardStats
    rw [revenueRows_restrictActive, salesRows_restrictActive]
    rfl
  · intro h
    rcases voidTransaction_spec faults s tid with ⟨-, hne⟩ | ⟨t, -, -, -, hs'⟩
    · exact absurd h hne
    · rw [hs']
      show (((s.transactions.map
          (fun t' => if t'.id == tid then { t' with status := "void" } else t')).filter
            (fun t' => t'.status == "active")).filter (fun t' => t'.id == tid)) = []
      rw [List.filter_filter]
      apply List.filter_eq_nil_iff.mpr
      intro a ha
      obtain ⟨t0, ht0, rfl⟩ := List.mem_map.mp ha
      by_cases hb : (t0.id == tid) = true
      · simp [hb]
      · simp [hb]

/-- Concrete witness for C6: after voiding order 1, no active-restricted
transaction row with id 1 remains. -/
theorem reports_exclude_void_witness :
    (voidTransaction noFaults ⟨[⟨1, "A", 10, 2, none⟩], [],
        [⟨1, 30, "cash", 0, "", "active", 0⟩], [⟨1, 1, 1, 3, 10, 30⟩], 2, 2⟩ 1).1 = .ok () ∧
    (restrictActive (voidTransaction noFaults ⟨[⟨1, "A", 10, 2, none⟩], [],
        [⟨1, 30, "cash", 0, "", "active", 0⟩],
        [⟨1, 1, 1, 3, 10, 30⟩], 2, 2⟩ 1).2).transactions.filter
      (fun t' => t'.id == 1) = [] :=
  ⟨by decide,
   (reports_exclude_void ⟨[⟨1, "A", 10, 2, none⟩], [],
      [⟨1, 30, "cash", 0, "", "active", 0⟩], [⟨1, 1, 1, 3, 10, 30⟩], 2, 2⟩
      0 0 0 noFaults 1).2.2.2.2 (by decide)⟩

/-- C7: over a date range matching no active order, the range report and the
report summary succeed with zero-valued/empty results: revenue 0,
transaction count 0, best seller `none`, and an empty (not missing) category
breakdown. -/
theorem empty_range_zero_reports (s : DBState) (startD endD : Nat)
    (h : ∀ t ∈ s.transactions, t.status = "active" →
      ¬(startD ≤ t.createdAt ∧ t.createdAt ≤ endD)) :
    getSalesReportByDateRange s startD endD =
      { totalRevenue := 0, totalTransactions := 0, bestSellingProduct := none } ∧
    getReportSummary s startD endD =
      { totalRevenue := 0, totalTransactions := 0, bestSellingProduct := none,
        categoryBreakdown := [] } := by
  have hpred : ∀ t ∈ s.transactions,
      (t.status == "active" && rangePred startD endD t) = false := by
    intro t ht
    by_cases hs : t.status = "active"
    · rcases Decidable.not_and_iff_or_not.mp (h t ht hs) with h1 | h1
      · simp [rangePred, h1]
      · simp [rangePred, h1]
    · simp [hs]
  have hrev : revenueRows s (rangePred startD endD) = [] := by
    unfold revenueRows
    apply List.filter_eq_nil_iff.mpr
    intro t ht
    simp [hpred t ht]
  have hrows : salesRows s (rangePred startD endD) = [] := by
    unfold salesRows
    apply List.filterMap_eq_nil_iff.mpr
    intro d hd
    unfold rowOf
    cases hfind : lookupTx s d.transactionId with
    | none => rfl
    | some t =>
      have ht : t ∈ s.transactions := List.mem_of_find?_eq_some hfind
      cases hp : lookupProduct s d.productId with
      | none => rfl
      | some p => simp [hpred t ht]
  constructor
  · unfold getSalesReportByDateRange
    rw [hrev, hrows]
    rfl
  · unfold getReportSummary
    rw [hrev, hrows]
    rfl

/-- Concrete witness for C7: an active order on day 5 is outside the range
`[1, 2]`, so both reports return the zero/empty record. -/
theorem empty_range_zero_reports_witness :
    getSalesReportByDateRange ⟨[⟨1, "A", 10, 5, none⟩], [],
        [⟨1, 20, "cash", 0, "", "active", 5⟩], [⟨1, 1, 1, 2, 10, 20⟩], 2, 2⟩ 1 2 =
      { totalRevenue := 0, totalTransactions := 0, bestSellingProduct := none } ∧
    getReportSummary ⟨[⟨1, "A", 10, 5, none⟩], [],
        [⟨1, 20, "cash", 0, "", "active", 5⟩], [⟨1, 1, 1, 2, 10, 20⟩], 2, 2⟩ 1 2 =
      { totalRevenue := 0, totalTransactions := 0, bestSellingProduct := none,
        categoryBreakdown := [] } :=
  empty_range_zero_reports ⟨[⟨1, "A", 10, 5, none⟩], [],
    [⟨1, 20, "cash", 0, "", "active", 5⟩], [⟨1, 1, 1, 2, 10, 20⟩], 2, 2⟩ 1 2 (by decide)

/-- Unpacking a successful join row: it carries the detail row itself, its
transaction (joined on the primary key, hence equal ids), its existing
product, and the qualification of the detail row. -/
theorem rowOf_some_elim (s : DBState) (pred : TransactionRow → Bool) (d : DetailRow)
    (r : SalesRow) (h : rowOf s pred d = some r) :
    r.1 = d ∧ r.2.1.id = d.transactionId ∧ lookupProduct s d.productId = some r.2.2 ∧
    qualifiesP s pred d = true := by
  unfold rowOf at h
  cases hfind : lookupTx s d.transactionId with
  | none => simp [hfind] at h
  | some t =>
    cases hp : lookupProduct s d.productId with
    | none => simp [hfind, hp] at h
    | some p =>
      simp only [hfind, hp] at h
      by_cases hcond : (t.status == "active" && pred t) = true
      · rw [if_pos hcond] at h
        injection h with h
        subst h
        refine ⟨rfl, by simpa using List.find?_some hfind, rfl, ?_⟩
        unfold qualifiesP
        rw [hfind]
        exact hcond
      · rw [if_neg hcond] at h
        cases h

/-- A detail row that produces no join row contributes to no category
bucket: either its order does not qualify or its product is gone. -/
theorem rowOf_none_elim (s : DBState) (pred : TransactionRow → Bool) (d : DetailRow)
    (h : rowOf s pred d = none) :
    qualifiesP s pred d = false ∨ catKeyOf s d = none := by
  unfold rowOf at h
  cases hfind : lookupTx s d.transactionId with
  | none =>
    left
    unfold qualifiesP
    rw [hfind]
  | some t =>
    cases hp : lookupProduct s d.productId with
    | none =>
      right
      unfold catKeyOf
      rw [hp]
      rfl
    | some p =>
      simp only [hfind, hp] at h
      by_cases hcond : (t.status == "active" && pred t) = true
      · rw [if_pos hcond] at h
        cases h
      · left
        unfold qualifiesP
        rw [hfind]
        simpa using hcond

/-- The detail rows underlying one category bucket of the join equal the
reference filter over the raw `transaction_details` table. -/
theorem filterMap_rowOf_cat (s : DBState) (pred : TransactionRow → Bool) (key : Option Int) :
    ∀ l : List DetailRow,
      ((l.filterMap (rowOf s pred)).filter (fun r => r.2.2.categoryId == key)).map
          (fun r => r.1) =
        l.filter (fun d => qualifiesP s pred d && catKeyOf s d == some key) := by
  intro l
  induction l with
  | nil => rfl
  | cons d rest ih =>
    rw [List.filterMap_cons, List.filter_cons]
    cases hrow : rowOf s pred d with
    | none =>
      have hq : (qualifiesP s pred d && catKeyOf s d == some key) = false := by
        rcases rowOf_none_elim s pred d hrow with h | h
        · simp [h]
        · simp [h]
      rw [hq]
      simpa using ih
    | some r =>
      obtain ⟨hr1, -, hp, hq⟩ := rowOf_some_elim s pred d r hrow
      have hcat : (catKeyOf s d == some key) = (r.2.2.categoryId == key) := by
        unfold catKeyOf
        rw [hp]
        rfl
      rw [List.filter_cons]
      by_cases hc : (r.2.2.categoryId == key) = true
      · rw [if_pos (by simpa using hc), if_pos (by simp [hq, hcat, hc])]
        rw [List.map_cons, hr1, ih]
      · rw [if_neg (by simpa using hc), if_neg (by simp [hq, hcat, hc]), ih]

/-- Same correspondence, projecting the joined transaction id (equal to the
recorded `transaction_id` of the detail row). -/
theorem filterMap_rowOf_txids (s : DBState) (pred : TransactionRow → Bool)
    (key : Option Int) :
    ∀ l : List DetailRow,
      ((l.filterMap (rowOf s pred)).filter (fun r => r.2.2.categoryId == key)).map
          (fun r => r.2.1.id) =
        (l.filter (fun d => qualifiesP s pred d && catKeyOf s d == some key)).map
          (fun d => d.transactionId) := by
  intro l
  induction l with
  | nil => rfl
  | cons d rest ih =>
    rw [List.filterMap_cons, List.filter_cons]
    cases hrow : rowOf s pred d with
    | none =>
      have hq : (qualifiesP s pred d && catKeyOf s d == some key) = false := by
        rcases rowOf_none_elim s pred d hrow with h | h
        · simp [h]
        · simp [h]
      rw [hq]
      simpa using ih
    | some r =>
      obtain ⟨-, hrid, hp, hq⟩ := rowOf_some_elim s pred d r hrow
      have hcat : (catKeyOf s d == some key) = (r.2.2.categoryId == key) := by
        unfold catKeyOf
        rw [hp]
        rfl
      rw [List.filter_cons]
      by_cases hc : (r.2.2.categoryId == key) = true
      · rw [if_pos (by simpa using hc), if_pos (by simp [hq, hcat, hc])]
        rw [List.map_cons, List.map_cons, hrid, ih]
      · rw [if_neg (by simpa using hc), if_neg (by simp [hq, hcat, hc]), ih]

/-- The category keys of the join rows equal the reference keys of the raw
detail rows (qualifying rows whose product exists). -/
theorem filterMap_rowOf_keys (s : DBState) (pred : TransactionRow → Bool) :
    ∀ l : List DetailRow,
      (l.filterMap (rowOf s pred)).map (fun r => r.2.2.categoryId) =
        l.filterMap (fun d => if qualifiesP s pred d then catKeyOf s d else none) := by
  intro l
  induction l with
  | nil => rfl
  | cons d rest ih =>
    rw [List.filterMap_cons, List.filterMap_cons]
    cases hrow : rowOf s pred d with
    | none =>
      rcases rowOf_none_elim s pred d hrow with h | h
      · rw [h]
        simpa using ih
      · by_cases hq : qualifiesP s pred d = true
        · rw [if_pos hq, h]
          exact ih
        · rw [if_neg hq]
          exact ih
    | some r =>
      obtain ⟨-, -, hp, hq⟩ := rowOf_some_elim s pred d r hrow
      rw [if_pos hq]
      have : catKeyOf s d = some r.2.2.categoryId := by
        unfold catKeyOf
        rw [hp]
        rfl
      rw [this, List.map_cons, ih]

/-- C8 counterexample: a qualifying line item (active order, in range) whose
product id 99 no longer exists is OMITTED from the category breakdown — the
inner `JOIN products` drops it — instead of being aggregated under an
"uncategorized" bucket: the breakdown is empty although the dangling line
item carries revenue 50. -/
theorem deleted_product_line_items_omitted :
    (getReportSummary ⟨[], [], [⟨1, 50, "cash", 0, "", "active", 0⟩],
        [⟨1, 1, 99, 1, 50, 50⟩], 2, 2⟩ 0 0).categoryBreakdown = [] ∧
    qualifiesP ⟨[], [], [⟨1, 50, "cash", 0, "", "active", 0⟩],
        [⟨1, 1, 99, 1, 50, 50⟩], 2, 2⟩ (rangePred 0 0) ⟨1, 1, 99, 1, 50, 50⟩ = true ∧
    lookupProduct ⟨[], [], [⟨1, 50, "cash", 0, "", "active", 0⟩],
        [⟨1, 1, 99, 1, 50, 50⟩], 2, 2⟩ 99 = none ∧
    (⟨1, 1, 99, 1, 50, 50⟩ : DetailRow) ∈
      (⟨[], [], [⟨1, 50, "cash", 0, "", "active", 0⟩],
        [⟨1, 1, 99, 1, 50, 50⟩], 2, 2⟩ : DBState).transactionDetails := by
  refine ⟨rfl, rfl, rfl, ?_⟩
  exact List.mem_singleton.mpr rfl

/-- C8 amended: the report summary's category breakdown is sorted descending
by revenue and is, up to the SQL's unspecified order among equal-revenue
groups, exactly the reference aggregation over the qualifying line items
WHOSE PRODUCT STILL EXISTS: one entry per occurring category key (products
with no category aggregate under the `category_id = 0` / "Uncategorized"
bucket) with revenue = sum of that bucket's subtotals and transactions = its
number of distinct orders.  Line items whose product has been deleted are
omitted from the breakdown entirely (see the counterexample), not bucketed
as uncategorized. -/
theorem category_breakdown_reference (s : DBState) (startD endD : Nat) :
    List.Sorted revDescOrder ((getReportSummary s startD endD).categoryBreakdown) ∧
    List.Perm ((getReportSummary s startD endD).categoryBreakdown)
      ((refKeys s (rangePred startD endD)).map (fun key =>
        { categoryId := key.getD 0
          categoryName := catName s.categories key
          revenue := refRevenue s (rangePred startD endD) key
          transactions := refTransactions s (rangePred startD endD) key })) := by
  constructor
  · unfold getReportSummary
    dsimp only
    unfold breakdownOf
    exact List.sorted_insertionSort _ _
  · unfold getReportSummary
    dsimp only
    unfold breakdownOf
    refine (List.perm_insertionSort _ _).trans ?_
    have hkeys : breakdownKeys (salesRows s (rangePred startD endD)) =
        refKeys s (rangePred startD endD) := by
      unfold breakdownKeys refKeys salesRows
      rw [filterMap_rowOf_keys]
    have hent : ∀ key, entryFor s.categories (salesRows s (rangePred startD endD)) key =
        { categoryId := key.getD 0
          categoryName := catName s.categories key
          revenue := refRevenue s (rangePred startD endD) key
          transactions := refTransactions s (rangePred startD endD) key } := by
      intro key
      unfold entryFor
      dsimp only
      congr 1
      · unfold refRevenue
        rw [show ((salesRows s (rangePred startD endD)).filter
              (fun r => r.2.2.categoryId == key)).map (fun r => r.1.subtotal) =
            (((salesRows s (rangePred startD endD)).filter
              (fun r => r.2.2.categoryId == key)).map (fun r => r.1)).map
                (fun d => d.subtotal) from (List.map_map _ _ _).symm]
        unfold salesRows
        rw [filterMap_rowOf_cat]
      · unfold refTransactions
        unfold salesRows
        rw [filterMap_rowOf_txids]
    rw [hkeys, List.map_congr_left (fun key _ => hent key)]

/-- C9 counterexample: the `transaction_details` insert persists no product
name, so a later lookup resolves names from the *current* products table.
Checkout of product 1 (then named "Old Name") returns the sale-time name,
but after renaming the product the lookup returns "New Name", and after
deleting it the lookup returns "Deleted Product" — not the sale-time
snapshot the claim promises. -/
theorem product_name_not_snapshotted :
    ((checkout noFaults 0 ⟨[⟨1, "Old Name", 10, 5, none⟩], [], [], [], 1, 1⟩
        ⟨[⟨1, 2⟩], "cash", 0, ""⟩).1.toOption.map
      (fun t => t.details.map (fun d => d.productName))) = some ["Old Name"] ∧
    ((getTransactionByID
      { (checkout noFaults 0 ⟨[⟨1, "Old Name", 10, 5, none⟩], [], [], [], 1, 1⟩
          ⟨[⟨1, 2⟩], "cash", 0, ""⟩).2 with products := [⟨1, "New Name", 10, 3, none⟩] }
      1).toOption.map (fun t => t.details.map (fun d => d.productName))) =
      some ["New Name"] ∧
    ((getTransactionByID
      { (checkout noFaults 0 ⟨[⟨1, "Old Name", 10, 5, none⟩], [], [], [], 1, 1⟩
          ⟨[⟨1, 2⟩], "cash", 0, ""⟩).2 with products := [] }
      1).toOption.map (fun t => t.details.map (fun d => d.productName))) =
      some ["Deleted Product"] := by
  refine ⟨rfl, rfl, rfl⟩

/-- C9 amended: a transaction lookup renders each line item's product name
from the current products table at read time — the current name when the
product row still exists, the literal "Deleted Product" when it does not;
the business fields of each returned line item come from the stored
(name-free) detail row.  The sale-time name appears only in the immediate
checkout response and is not persisted. -/
theorem transaction_lookup_resolves_names (s : DBState) (tid : Int) (t : Transaction)
    (h : getTransactionByID s tid = .ok t) :
    ∀ d ∈ t.details,
      d.productName = (match lookupProduct s d.productId with
        | some p => p.name
        | none => "Deleted Product") ∧
      (⟨d.id, d.transactionId, d.productId, d.quantity, d.unitPrice, d.subtotal⟩ : DetailRow)
        ∈ s.transactionDetails := by
  unfold getTransactionByID at h
  cases hfind : lookupTx s tid with
  | none => simp [hfind] at h
  | some t0 =>
    simp only [hfind] at h
    injection h with h
    subst h
    intro d hd
    obtain ⟨d₀, hd₀, rfl⟩ := List.mem_map.mp hd
    exact ⟨rfl, List.mem_of_mem_filter hd₀⟩

/-- Concrete witness for the amended C9: looking up order 1 after product 1
was renamed to "New Name" returns "New Name" for its line item, whose stored
fields are the persisted row. -/
theorem transaction_lookup_resolves_names_witness :
    getTransactionByID ⟨[⟨1, "New Name", 10, 3, none⟩], [],
        [⟨1, 20, "cash", 0, "", "active", 0⟩], [⟨1, 1, 1, 2, 10, 20⟩], 2, 2⟩ 1 =
      .ok ⟨1, 20, "cash", 0, "", "active", 0, [⟨1, 1, 1, "New Name", 2, 10, 20⟩]⟩ ∧
    ((⟨1, 1, 1, "New Name", 2, 10, 20⟩ : TransactionDetail).productName =
      (match lookupProduct ⟨[⟨1, "New Name", 10, 3, none⟩], [],
          [⟨1, 20, "cash", 0, "", "active", 0⟩], [⟨1, 1, 1, 2, 10, 20⟩], 2, 2⟩
          (⟨1, 1, 1, "New Name", 2, 10, 20⟩ : TransactionDetail).productId with
        | some p => p.name
        | none => "Deleted Product") ∧
      (⟨1, 1, 1, 2, 10, 20⟩ : DetailRow) ∈
        (⟨[⟨1, "New Name", 10, 3, none⟩], [], [⟨1, 20, "cash", 0, "", "active", 0⟩],
          [⟨1, 1, 1, 2, 10, 20⟩], 2, 2⟩ : DBState).transactionDetails) :=
  ⟨by decide,
   transaction_lookup_resolves_names ⟨[⟨1, "New Name", 10, 3, none⟩], [],
       [⟨1, 20, "cash", 0, "", "active", 0⟩], [⟨1, 1, 1, 2, 10, 20⟩], 2, 2⟩ 1
     ⟨1, 20, "cash", 0, "", "active", 0, [⟨1, 1, 1, "New Name", 2, 10, 20⟩]⟩ (by decide)
     ⟨1, 1, 1, "New Name", 2, 10, 20⟩ (by decide)⟩

/-- C5 (code bug exhibited): under READ COMMITTED with the plain `SELECT`
(no `FOR UPDATE`) and the unconditional decrement of `CreateTransaction`,
the interleaving in which both sessions read stock 1 before either updates
lets BOTH one-unit checkouts succeed, leaving stock −1; the serialized
schedule correctly rejects the second sale.  The stock read and the
decrement are therefore not indivisible with respect to a concurrent
decrement on the same row. -/
theorem race_both_succeed_on_last_unit :
    (runRace 1 [.select1, .select2, .update1, .update2] (raceInit 1)).sold1 = true ∧
    (runRace 1 [.select1, .select2, .update1, .update2] (raceInit 1)).sold2 = true ∧
    (runRace 1 [.select1, .select2, .update1, .update2] (raceInit 1)).stock = -1 ∧
    (runRace 1 [.select1, .update1, .select2, .update2] (raceInit 1)).sold2 = false ∧
    (runRace 1 [.select1, .update1, .select2, .update2] (raceInit 1)).stock = 0 := by
  decide

end Retail
